import Mathlib

/-!
Verification of the Game of Life engine in src/main.cpp (class GameOfLife).

The C++ code is shallowly embedded below.  The grid is a vector of vectors of
bool, embedded as a list of lists of booleans; machine ints that only ever
hold small non-negative values (generation, row and column counts inside the
running simulation) are embedded as naturals, while counters and the loop
length, which can be negative or are compared with -1, stay integers.  The
toroidal index arithmetic is done on integers exactly as in the source; for
the operand ranges arising in the program (0 <= x < n, -1 <= d <= 1) the C++
`%` agrees with `Int.emod`, which is what `%` denotes on `Int` here.
-/

namespace GOL

abbrev Grid := List (List Bool)

/-- src/main.cpp line 21: `static constexpr bool ALIVE {true}`. -/
def ALIVE : Bool := true

/-- src/main.cpp line 22: `static constexpr bool DEAD {false}`. -/
def DEAD : Bool := false

/-- src/main.cpp lines 13-16: a named pattern, cells relative to the center. -/
structure Pattern where
  name : String
  cells : List (Int × Int)
deriving DecidableEq

/-- The mutable members of class GameOfLife (src/main.cpp lines 26-36) that the
    simulation core reads or writes.  Display-only constants are omitted.
    The history map `std::unordered_map<std::string,int>` is embedded as an
    association list with unique keys. -/
structure GameState where
  rows : Nat
  cols : Nat
  grid : Grid
  generation : Nat
  currentAliveCells : Int
  totalBirths : Int
  totalDeaths : Int
  loopLength : Int
  pattern : Pattern
  generationHistory : List (String × Nat)
deriving DecidableEq

/-- Read grid[i][j]; out-of-range reads return false (every access made by the
    program is in range on a well-shaped grid). -/
def getCell (g : Grid) (i j : Nat) : Bool := (g.getD i []).getD j false

/-- Write grid[i][j] (out-of-range writes leave the grid unchanged; the program
    only writes in range). -/
def setCell (g : Grid) (i j : Nat) (v : Bool) : Grid :=
  g.set i ((g.getD i []).set j v)

/-- The toroidal wrap `(x + d + n) % n` from src/main.cpp lines 55-56 (and the
    analogous expressions at lines 155-156, 176-181).  The numerator is
    non-negative whenever `0 <= x` and `-1 <= d` and `1 <= n`, where the C++
    truncating `%` agrees with the euclidean `%` used here. -/
def wrapIdx (x : Nat) (d : Int) (n : Nat) : Nat :=
  (((x : Int) + d + (n : Int)) % (n : Int)).toNat

def dirRange : List Int := [-1, 0, 1]

/-- src/main.cpp lines 48-65: `countAliveNeighbors(row, col)`.  The two nested
    for-loops over dRow, dCol in {-1,0,1} with the `continue` on (0,0) are the
    two nested folds with the same skip test. -/
def countAliveNeighbors (rows cols : Nat) (g : Grid) (row col : Nat) : Nat :=
  dirRange.foldl (fun count dRow =>
    dirRange.foldl (fun count dCol =>
      if dRow = 0 ∧ dCol = 0 then count
      else
        if getCell g (wrapIdx row dRow rows) (wrapIdx col dCol cols) = ALIVE then count + 1
        else count) count) 0

/-- src/main.cpp lines 67-75: `serializeGrid`, the row-major '1'/'0' encoding. -/
def serializeGrid (g : Grid) : String :=
  ⟨g.flatten.map (fun cell => if cell then '1' else '0')⟩

/-- src/main.cpp lines 251-260: `areAllDead`, true iff no cell equals ALIVE. -/
def areAllDead (g : Grid) : Bool :=
  g.all (fun row => row.all (fun cell => !(cell == ALIVE)))

/-- The value held by newGrid[i][j] after the loop body of
    `computeNextGeneration` (src/main.cpp lines 221-245) has processed cell
    (i,j): newGrid starts as a copy of grid, an alive cell with a neighbor
    count outside {2,3} is overwritten with DEAD, a dead cell with exactly 3
    neighbors is overwritten with ALIVE, and in the remaining two branches the
    copied value is kept.  Neighbor counts are taken on `g`, the grid of the
    current generation, which the source never mutates during the loop. -/
def nextCell (rows cols : Nat) (g : Grid) (i j : Nat) : Bool :=
  let neighbors := countAliveNeighbors rows cols g i j
  if getCell g i j = ALIVE then
    if neighbors < 2 ∨ neighbors > 3 then DEAD else getCell g i j
  else
    if neighbors = 3 then ALIVE else getCell g i j

/-- The grid produced by one call of `computeNextGeneration`: the loop writes
    cell (i,j) of newGrid exactly at iteration (i,j) and reads only the old
    grid, so the finished newGrid holds `nextCell` at every in-range position. -/
def nextGrid (rows cols : Nat) (g : Grid) : Grid :=
  (List.range rows).map (fun i => (List.range cols).map (fun j => nextCell rows cols g i j))

/-- All loop index pairs (i,j) of the nested loops over rows and cols, in
    traversal order. -/
def cellIdx (rows cols : Nat) : List (Nat × Nat) :=
  (List.range rows).flatMap (fun i => (List.range cols).map (fun j => (i, j)))

/-- Number of iterations of the `computeNextGeneration` loop that execute the
    death branch (src/main.cpp lines 227-232): cell alive and neighbors < 2 or
    neighbors > 3.  `totalDeaths` is incremented once per such iteration. -/
def deathsInStep (rows cols : Nat) (g : Grid) : Nat :=
  (cellIdx rows cols).countP (fun p =>
    getCell g p.1 p.2 &&
      (decide (countAliveNeighbors rows cols g p.1 p.2 < 2) ||
       decide (countAliveNeighbors rows cols g p.1 p.2 > 3)))

/-- Number of iterations of the `computeNextGeneration` loop that execute the
    birth branch (src/main.cpp lines 236-241): cell dead and neighbors == 3.
    `totalBirths` is incremented once per such iteration. -/
def birthsInStep (rows cols : Nat) (g : Grid) : Nat :=
  (cellIdx rows cols).countP (fun p =>
    !getCell g p.1 p.2 && decide (countAliveNeighbors rows cols g p.1 p.2 = 3))

/-- src/main.cpp lines 218-249: `computeNextGeneration`.  The loop-carried
    updates of `totalDeaths`, `totalBirths` and `currentAliveCells` (one
    increment or decrement per executed branch) sum to the branch counts over
    all iterations. -/
def computeNextGeneration (s : GameState) : GameState :=
  { s with
    grid := nextGrid s.rows s.cols s.grid
    generation := s.generation + 1
    totalDeaths := s.totalDeaths + (deathsInStep s.rows s.cols s.grid : Int)
    totalBirths := s.totalBirths + (birthsInStep s.rows s.cols s.grid : Int)
    currentAliveCells := s.currentAliveCells
      + (birthsInStep s.rows s.cols s.grid : Int) - (deathsInStep s.rows s.cols s.grid : Int) }

/-- Lookup in the history map: the stored generation index for a key. -/
def histFind (h : List (String × Nat)) (k : String) : Option Nat :=
  (h.find? (fun e => e.1 == k)).map (fun e => e.2)

/-- `generationHistory[key] = value` on a `std::unordered_map`: replace the
    value of an existing key, otherwise insert the key. -/
def histRecord (h : List (String × Nat)) (k : String) (v : Nat) : List (String × Nat) :=
  if (h.find? (fun e => e.1 == k)).isSome then
    h.map (fun e => if e.1 == k then (k, v) else e)
  else
    (k, v) :: h

/-- src/main.cpp lines 262-275: `detectLoop`.  If all cells are dead the loop
    length is set to -1 and the function returns at once; otherwise, when the
    serialized state is a known key, the loop length becomes the current
    generation minus the stored index, and in every non-dead call the key is
    (re-)recorded with the current generation. -/
def detectLoop (s : GameState) : GameState :=
  if areAllDead s.grid then
    { s with loopLength := -1 }
  else
    let currentState := serializeGrid s.grid
    let s1 :=
      match histFind s.generationHistory currentState with
      | some v => { s with loopLength := (s.generation : Int) - (v : Int) }
      | none => s
    { s1 with generationHistory := histRecord s1.generationHistory currentState s1.generation }

/-- One iteration of the simulation loop in `run` (src/main.cpp lines 298-303):
    `computeNextGeneration(); detectLoop();`. -/
def tick (s : GameState) : GameState := detectLoop (computeNextGeneration s)

/-- The state after n iterations of the simulation loop. -/
def runFrom (s : GameState) : Nat → GameState
  | 0 => s
  | n + 1 => tick (runFrom s n)

/-- The grid cell targeted by one pattern offset in `setPattern`
    (src/main.cpp lines 154-156): the offset is added to the center
    (rows/2, cols/2) and wrapped toroidally. -/
def patternTarget (rows cols : Nat) (off : Int × Int) : Nat × Nat :=
  (wrapIdx (rows / 2) off.1 rows, wrapIdx (cols / 2) off.2 cols)

/-- The grid produced by the Random branch of `setPattern`: in row-major
    order, the cell with flat index k is assigned draw k.  The loop variable
    of `for (auto cell : row)` over a std::vector of bool is a copy of the
    proxy reference, and assignment through it writes the underlying bit, so
    every cell really is overwritten with its draw. -/
def randFill (draws : Nat → Bool) : Nat → Grid → Grid
  | _, [] => []
  | k, row :: rest =>
    (List.range row.length).map (fun j => draws (k + j)) :: randFill draws (k + row.length) rest

/-- The number of draws below the threshold among those consumed by the
    Random branch; `currentAliveCells` is incremented once per such draw. -/
def randAliveCount (draws : Nat → Bool) : Nat → Grid → Nat
  | _, [] => 0
  | k, row :: rest =>
    (List.range row.length).countP (fun j => draws (k + j))
      + randAliveCount draws (k + row.length) rest

/-- src/main.cpp lines 149-170: `setPattern`.  For a shaped pattern every
    offset marks its wrapped target cell ALIVE and increments
    `currentAliveCells` once, with no deduplication of offsets that land on
    the same cell.  In the "Random" branch (lines 160-169) each cell is
    assigned its random draw through the copied vector-of-bool proxy
    reference and `currentAliveCells` is incremented once per draw below the
    threshold; `draws k` supplies the outcome of the k-th comparison
    `rand()/RAND_MAX < aliveProbability`, which is external input. -/
def setPattern (draws : Nat → Bool) (s : GameState) : GameState :=
  if s.pattern.name ≠ "Random" then
    s.pattern.cells.foldl (fun st off =>
      { st with
        grid := setCell st.grid (patternTarget st.rows st.cols off).1
          (patternTarget st.rows st.cols off).2 ALIVE
        currentAliveCells := st.currentAliveCells + 1 }) s
  else
    { s with
      grid := randFill draws 0 s.grid
      currentAliveCells := s.currentAliveCells + (randAliveCount draws 0 s.grid : Int) }

/-- src/main.cpp line 312: the "Glider" entry of PATTERNS. -/
def gliderPattern : Pattern :=
  { name := "Glider", cells := [(0,1), (1,2), (2,0), (2,1), (2,2)] }

/-- src/main.cpp line 313: the "Blinker" entry of PATTERNS. -/
def blinkerPattern : Pattern :=
  { name := "Blinker", cells := [(0,0), (1,0), (2,0)] }

/-- src/main.cpp line 316: the "Block" entry of PATTERNS. -/
def blockPattern : Pattern :=
  { name := "Block", cells := [(0,0), (0,1), (1,0), (1,1)] }

/-- Number of true cells in a grid; the quantity `currentAliveCells` is meant
    to track according to the specification. -/
def aliveCellCount (g : Grid) : Nat := g.flatten.countP (fun c => c)

/-- The dimensions computed by `getTerminalSize` (src/main.cpp lines 40-46)
    from the reported terminal size: `{size.ws_row - 5, size.ws_col / 2}`.
    `ws_row` and `ws_col` are unsigned shorts, so both operands are
    non-negative and the C++ truncating division agrees with the division
    used here on those inputs. -/
def terminalDims (wsRow wsCol : Int) : Int × Int :=
  (wsRow - 5, wsCol / 2)

/-- The data established by the constructor (src/main.cpp lines 101-106). -/
structure InitDims where
  rows : Int
  cols : Int
  grid : Grid
deriving DecidableEq

/-- src/main.cpp lines 101-106: the GameOfLife constructor.  It stores the
    terminal-derived dimensions and allocates a rows x cols all-false grid
    with no validation whatsoever: rows = 0 or cols = 0 yields a degenerate
    empty grid and succeeds.  When a dimension is negative, the std::vector
    constructor receives the count converted to a huge size_t and throws, so
    construction does fail there - an uncontrolled allocation failure
    (modelled as none), not a designed fail-fast check. -/
def gameOfLifeInit (wsRow wsCol : Int) : Option InitDims :=
  let d := terminalDims wsRow wsCol
  if d.1 < 0 ∨ d.2 < 0 then none
  else some { rows := d.1, cols := d.2
              grid := List.replicate d.1.toNat (List.replicate d.2.toNat false) }

/-- Modelled from the spec: section 7 requires that with degenerate grid
    dimensions (rows <= 0 or cols <= 0) "construction fails fast"; no such
    check exists anywhere in src/.  This checked constructor follows the
    spec's words and is compared against `gameOfLifeInit`, the constructor
    the code actually has. -/
def specCheckedInit (wsRow wsCol : Int) : Option InitDims :=
  let d := terminalDims wsRow wsCol
  if d.1 ≤ 0 ∨ d.2 ≤ 0 then none
  else some { rows := d.1, cols := d.2
              grid := List.replicate d.1.toNat (List.replicate d.2.toNat false) }

/-! ### Basic lemmas about the step function -/

/-- The eight neighbor offsets visited by the loops of `countAliveNeighbors`,
    in traversal order. -/
def neighborOffsets : List (Int × Int) :=
  [(-1,-1), (-1,0), (-1,1), (0,-1), (0,1), (1,-1), (1,0), (1,1)]

set_option maxHeartbeats 2000000 in
theorem countAliveNeighbors_eq_countP (rows cols : Nat) (g : Grid) (row col : Nat) :
    countAliveNeighbors rows cols g row col =
      neighborOffsets.countP
        (fun d => getCell g (wrapIdx row d.1 rows) (wrapIdx col d.2 cols)) := by
  unfold countAliveNeighbors dirRange neighborOffsets
  simp only [List.foldl_cons, List.foldl_nil, List.countP_cons, List.countP_nil]
  norm_num [ALIVE]
  cases getCell g (wrapIdx row (-1) rows) (wrapIdx col (-1) cols) <;>
    cases getCell g (wrapIdx row (-1) rows) (wrapIdx col 0 cols) <;>
    cases getCell g (wrapIdx row (-1) rows) (wrapIdx col 1 cols) <;>
    cases getCell g (wrapIdx row 0 rows) (wrapIdx col (-1) cols) <;>
    cases getCell g (wrapIdx row 0 rows) (wrapIdx col 1 cols) <;>
    cases getCell g (wrapIdx row 1 rows) (wrapIdx col (-1) cols) <;>
    cases getCell g (wrapIdx row 1 rows) (wrapIdx col 0 cols) <;>
    cases getCell g (wrapIdx row 1 rows) (wrapIdx col 1 cols) <;>
    decide

theorem getCell_nextGrid (rows cols : Nat) (g : Grid) (i j : Nat)
    (hi : i < rows) (hj : j < cols) :
    getCell (nextGrid rows cols g) i j = nextCell rows cols g i j := by
  simp [getCell, nextGrid, List.getD_eq_getElem?_getD, List.getElem?_map,
    List.getElem?_range, hi, hj]

theorem areAllDead_iff (g : Grid) :
    areAllDead g = true ↔ ∀ row ∈ g, ∀ c ∈ row, c = false := by
  simp [areAllDead, List.all_eq_true, ALIVE]

theorem getCell_of_allDead {g : Grid} (h : areAllDead g = true) (i j : Nat) :
    getCell g i j = false := by
  rw [areAllDead_iff] at h
  unfold getCell
  rw [List.getD_eq_getElem?_getD, List.getD_eq_getElem?_getD]
  cases hr : g[i]? with
  | none => simp
  | some row =>
    cases hc : row[j]? with
    | none => simp [hc]
    | some c =>
      have : c = false := h row (List.getElem?_mem hr) c (List.getElem?_mem hc)
      simp [hc, this]

theorem countAliveNeighbors_of_allDead {g : Grid} (h : areAllDead g = true)
    (rows cols row col : Nat) : countAliveNeighbors rows cols g row col = 0 := by
  rw [countAliveNeighbors_eq_countP]
  rw [List.countP_eq_zero]
  intro d _
  simp [getCell_of_allDead h]

theorem nextCell_of_allDead {g : Grid} (h : areAllDead g = true) (rows cols i j : Nat) :
    nextCell rows cols g i j = false := by
  simp [nextCell, getCell_of_allDead h, countAliveNeighbors_of_allDead h, ALIVE, DEAD]

theorem areAllDead_nextGrid {g : Grid} (h : areAllDead g = true) (rows cols : Nat) :
    areAllDead (nextGrid rows cols g) = true := by
  rw [areAllDead_iff]
  intro row hrow c hc
  simp only [nextGrid, List.mem_map, List.mem_range] at hrow
  obtain ⟨i, _, rfl⟩ := hrow
  simp only [List.mem_map, List.mem_range] at hc
  obtain ⟨j, _, rfl⟩ := hc
  exact nextCell_of_allDead h rows cols i j

theorem mem_cellIdx {rows cols : Nat} {p : Nat × Nat} :
    p ∈ cellIdx rows cols ↔ p.1 < rows ∧ p.2 < cols := by
  obtain ⟨a, b⟩ := p
  simp only [cellIdx, List.mem_flatMap, List.mem_map, List.mem_range]
  constructor
  · rintro ⟨i, hi, j, hj, h⟩
    obtain ⟨rfl, rfl⟩ := Prod.mk.injEq .. |>.mp h.symm
    exact ⟨hi, hj⟩
  · rintro ⟨ha, hb⟩
    exact ⟨a, ha, b, hb, rfl⟩

theorem birthsInStep_of_allDead {g : Grid} (h : areAllDead g = true) (rows cols : Nat) :
    birthsInStep rows cols g = 0 := by
  rw [birthsInStep, List.countP_eq_zero]
  intro p _
  simp [countAliveNeighbors_of_allDead h]

theorem deathsInStep_of_allDead {g : Grid} (h : areAllDead g = true) (rows cols : Nat) :
    deathsInStep rows cols g = 0 := by
  rw [deathsInStep, List.countP_eq_zero]
  intro p _
  simp [getCell_of_allDead h]

/-! ### Claim theorems C1, C9, C10 -/

/-- C1: one call of computeNextGeneration sets the post-step state of every
    in-range cell (i,j) solely from its pre-step state and the neighbor count
    n taken over the unmodified pre-step grid, exactly per the four rules:
    alive with n < 2 or n > 3 becomes dead, alive with n in {2,3} stays
    alive, dead with n = 3 becomes alive, dead with n ≠ 3 stays dead. -/
theorem step_follows_life_rules (s : GameState) (i j : Nat)
    (hi : i < s.rows) (hj : j < s.cols) :
    getCell (computeNextGeneration s).grid i j = true ↔
      ((getCell s.grid i j = true ∧
          (countAliveNeighbors s.rows s.cols s.grid i j = 2 ∨
           countAliveNeighbors s.rows s.cols s.grid i j = 3)) ∨
       (getCell s.grid i j = false ∧
          countAliveNeighbors s.rows s.cols s.grid i j = 3)) := by
  have hg : (computeNextGeneration s).grid = nextGrid s.rows s.cols s.grid := rfl
  rw [hg, getCell_nextGrid s.rows s.cols s.grid i j hi hj]
  unfold nextCell
  rcases hc : getCell s.grid i j <;> simp [hc, ALIVE, DEAD]
  omega

/-- Witness for `step_follows_life_rules`: a dead cell with three live
    neighbors on a concrete 3x3 grid is born. -/
theorem step_follows_life_rules_witness :
    let s : GameState :=
      { rows := 3, cols := 3
        grid := [[true, true, true], [false, false, false], [false, false, false]]
        generation := 0, currentAliveCells := 3, totalBirths := 0, totalDeaths := 0
        loopLength := 0, pattern := blinkerPattern, generationHistory := [] }
    getCell (computeNextGeneration s).grid 1 1 = true ↔
      ((getCell s.grid 1 1 = true ∧
          (countAliveNeighbors s.rows s.cols s.grid 1 1 = 2 ∨
           countAliveNeighbors s.rows s.cols s.grid 1 1 = 3)) ∨
       (getCell s.grid 1 1 = false ∧
          countAliveNeighbors s.rows s.cols s.grid 1 1 = 3)) := by
  exact step_follows_life_rules _ 1 1 (by decide) (by decide)

/-- C9: the all-dead grid is a fixed point of the step function, and stepping
    an all-dead grid changes none of currentAliveCells, totalBirths,
    totalDeaths. -/
theorem allDead_fixed_point (s : GameState) (h : areAllDead s.grid = true) :
    areAllDead (computeNextGeneration s).grid = true ∧
    (computeNextGeneration s).currentAliveCells = s.currentAliveCells ∧
    (computeNextGeneration s).totalBirths = s.totalBirths ∧
    (computeNextGeneration s).totalDeaths = s.totalDeaths := by
  refine ⟨areAllDead_nextGrid h s.rows s.cols, ?_, ?_, ?_⟩ <;>
    simp [computeNextGeneration, birthsInStep_of_allDead h, deathsInStep_of_allDead h]

/-- Witness for `allDead_fixed_point` at a concrete all-dead 2x2 grid. -/
theorem allDead_fixed_point_witness :
    let s : GameState :=
      { rows := 2, cols := 2, grid := [[false, false], [false, false]]
        generation := 0, currentAliveCells := 0, totalBirths := 0, totalDeaths := 0
        loopLength := 0, pattern := blockPattern, generationHistory := [] }
    areAllDead (computeNextGeneration s).grid = true ∧
    (computeNextGeneration s).currentAliveCells = s.currentAliveCells ∧
    (computeNextGeneration s).totalBirths = s.totalBirths ∧
    (computeNextGeneration s).totalDeaths = s.totalDeaths := by
  exact allDead_fixed_point _ (by decide)

/-- Number of cells that change from dead to alive between grid g and grid
    g', over the loop index range. -/
def changedToAlive (rows cols : Nat) (g g' : Grid) : Nat :=
  (cellIdx rows cols).countP (fun p => !getCell g p.1 p.2 && getCell g' p.1 p.2)

/-- Number of cells that change from alive to dead between grid g and grid
    g', over the loop index range. -/
def changedToDead (rows cols : Nat) (g g' : Grid) : Nat :=
  (cellIdx rows cols).countP (fun p => getCell g p.1 p.2 && !getCell g' p.1 p.2)

theorem birthsInStep_eq_changed (rows cols : Nat) (g : Grid) :
    birthsInStep rows cols g = changedToAlive rows cols g (nextGrid rows cols g) := by
  unfold birthsInStep changedToAlive
  refine List.countP_congr ?_
  intro p hp
  obtain ⟨h1, h2⟩ := mem_cellIdx.mp hp
  rw [getCell_nextGrid rows cols g p.1 p.2 h1 h2]
  unfold nextCell
  rcases hc : getCell g p.1 p.2 <;> simp [hc, ALIVE, DEAD]

theorem deathsInStep_eq_changed (rows cols : Nat) (g : Grid) :
    deathsInStep rows cols g = changedToDead rows cols g (nextGrid rows cols g) := by
  unfold deathsInStep changedToDead
  refine List.countP_congr ?_
  intro p hp
  obtain ⟨h1, h2⟩ := mem_cellIdx.mp hp
  rw [getCell_nextGrid rows cols g p.1 p.2 h1 h2]
  unfold nextCell
  rcases hc : getCell g p.1 p.2 <;> simp [hc, ALIVE, DEAD]

/-- C10: a single computeNextGeneration call increases totalBirths by exactly
    the number of cells that changed from dead to alive, increases
    totalDeaths by exactly the number of cells that changed from alive to
    dead, and changes currentAliveCells by exactly births minus deaths of
    that step. -/
theorem step_counter_deltas (s : GameState) :
    (computeNextGeneration s).totalBirths = s.totalBirths +
      (changedToAlive s.rows s.cols s.grid (computeNextGeneration s).grid : Int) ∧
    (computeNextGeneration s).totalDeaths = s.totalDeaths +
      (changedToDead s.rows s.cols s.grid (computeNextGeneration s).grid : Int) ∧
    (computeNextGeneration s).currentAliveCells = s.currentAliveCells +
      (changedToAlive s.rows s.cols s.grid (computeNextGeneration s).grid : Int) -
      (changedToDead s.rows s.cols s.grid (computeNextGeneration s).grid : Int) := by
  have hg : (computeNextGeneration s).grid = nextGrid s.rows s.cols s.grid := rfl
  rw [hg, ← birthsInStep_eq_changed, ← deathsInStep_eq_changed]
  exact ⟨rfl, rfl, rfl⟩

/-! ### Neighbor positions: the wrap map and its injectivity on large grids -/

/-- The eight wrapped neighbor positions of (row, col), in offset order. -/
def neighborPositions (rows cols row col : Nat) : List (Nat × Nat) :=
  neighborOffsets.map (fun d => (wrapIdx row d.1 rows, wrapIdx col d.2 cols))

/-- The neighbor count the specification describes: the number of live cells
    among the 8 toroidally-wrapped neighbor positions, each distinct cell
    counted once (this definition follows the spec's words, for comparison
    with `countAliveNeighbors`, the code's count). -/
def specNeighborCount (rows cols : Nat) (g : Grid) (row col : Nat) : Nat :=
  ((neighborPositions rows cols row col).dedup.filter (fun p => getCell g p.1 p.2)).length

theorem wrapIdx_lt {n : Nat} (hn : 0 < n) (x : Nat) (d : Int) : wrapIdx x d n < n := by
  unfold wrapIdx
  have hn' : (0 : Int) < (n : Int) := by exact_mod_cast hn
  have h1 : 0 ≤ ((x : Int) + d + (n : Int)) % (n : Int) :=
    Int.emod_nonneg _ (by omega)
  have h2 : ((x : Int) + d + (n : Int)) % (n : Int) < (n : Int) :=
    Int.emod_lt_of_pos _ hn'
  omega

theorem wrapIdx_zero {n x : Nat} (hx : x < n) : wrapIdx x 0 n = x := by
  unfold wrapIdx
  have hx' : (x : Int) < (n : Int) := by exact_mod_cast hx
  have h : ((x : Int) + 0 + (n : Int)) % (n : Int) = (x : Int) := by
    have e : (x : Int) + 0 + (n : Int) = (x : Int) + 1 * (n : Int) := by ring
    rw [e, Int.add_mul_emod_self]
    exact Int.emod_eq_of_lt (by omega) hx'
  rw [h]
  omega

theorem wrapIdx_injOn {n : Nat} (hn : 3 ≤ n) {x : Nat} (_hx : x < n) {d d' : Int}
    (hd : -1 ≤ d ∧ d ≤ 1) (hd' : -1 ≤ d' ∧ d' ≤ 1)
    (h : wrapIdx x d n = wrapIdx x d' n) : d = d' := by
  unfold wrapIdx at h
  have hn' : (0 : Int) < (n : Int) := by exact_mod_cast Nat.lt_of_lt_of_le (by omega) hn
  have h1 : 0 ≤ ((x : Int) + d + (n : Int)) % (n : Int) :=
    Int.emod_nonneg _ (by omega)
  have h2 : 0 ≤ ((x : Int) + d' + (n : Int)) % (n : Int) :=
    Int.emod_nonneg _ (by omega)
  have hmod : ((x : Int) + d + (n : Int)) % (n : Int)
      = ((x : Int) + d' + (n : Int)) % (n : Int) := by omega
  have hdvd : (n : Int) ∣ (((x : Int) + d + (n : Int)) - ((x : Int) + d' + (n : Int))) :=
    Int.dvd_of_emod_eq_zero (by rw [Int.sub_emod, hmod, sub_self, Int.zero_emod])
  have hdd : ((x : Int) + d + (n : Int)) - ((x : Int) + d' + (n : Int)) = d - d' := by ring
  rw [hdd] at hdvd
  by_contra hne
  have habs : (0 : Int) < |d - d'| := abs_pos.mpr (sub_ne_zero.mpr hne)
  have hle : (n : Int) ≤ |d - d'| := Int.le_of_dvd habs ((dvd_abs _ _).mpr hdvd)
  have : |d - d'| ≤ 2 := abs_le.mpr ⟨by omega, by omega⟩
  have : (n : Int) ≤ 2 := le_trans hle this
  have : (3 : Int) ≤ (n : Int) := by exact_mod_cast hn
  omega

theorem mem_neighborOffsets_bounds {d : Int × Int} (h : d ∈ neighborOffsets) :
    (-1 ≤ d.1 ∧ d.1 ≤ 1) ∧ (-1 ≤ d.2 ∧ d.2 ≤ 1) := by
  fin_cases h <;> norm_num

theorem neighborPositions_nodup {rows cols row col : Nat} (hr : 3 ≤ rows) (hc : 3 ≤ cols)
    (hrow : row < rows) (hcol : col < cols) :
    (neighborPositions rows cols row col).Nodup := by
  refine List.Nodup.map_on ?_ (by decide)
  intro d hd d' hd' h
  obtain ⟨hb1, hb2⟩ := mem_neighborOffsets_bounds hd
  obtain ⟨hb1', hb2'⟩ := mem_neighborOffsets_bounds hd'
  have h1 := congrArg Prod.fst h
  have h2 := congrArg Prod.snd h
  simp only at h1 h2
  exact Prod.ext (wrapIdx_injOn hr hrow hb1 hb1' h1) (wrapIdx_injOn hc hcol hb2 hb2' h2)

theorem self_not_mem_neighborPositions {rows cols row col : Nat} (hr : 3 ≤ rows)
    (hc : 3 ≤ cols) (hrow : row < rows) (hcol : col < cols) :
    (row, col) ∉ neighborPositions rows cols row col := by
  intro hmem
  simp only [neighborPositions, List.mem_map] at hmem
  obtain ⟨d, hd, heq⟩ := hmem
  obtain ⟨hb1, hb2⟩ := mem_neighborOffsets_bounds hd
  have h1 := congrArg Prod.fst heq
  have h2 := congrArg Prod.snd heq
  simp only at h1 h2
  have h1' : wrapIdx row d.1 rows = wrapIdx row 0 rows := by
    rw [wrapIdx_zero hrow]; exact h1
  have h2' : wrapIdx col d.2 cols = wrapIdx col 0 cols := by
    rw [wrapIdx_zero hcol]; exact h2
  have e1 : d.1 = 0 := wrapIdx_injOn hr hrow hb1 (by norm_num) h1'
  have e2 : d.2 = 0 := wrapIdx_injOn hc hcol hb2 (by norm_num) h2'
  have : d = ((0 : Int), (0 : Int)) := Prod.ext e1 e2
  rw [this] at hd
  exact absurd hd (by decide)

theorem wrapIdx_neg_one {n : Nat} (hn : 1 ≤ n) : wrapIdx 0 (-1) n = n - 1 := by
  unfold wrapIdx
  have hn' : (1 : Int) ≤ (n : Int) := by exact_mod_cast hn
  have e : (((0 : Nat) : Int) + -1 + (n : Int)) = (n : Int) - 1 := by
    omega
  rw [e, Int.emod_eq_of_lt (by omega) (by omega)]
  omega

/-! ### Claim theorems C5, C4, C6 -/

/-- C5 (amended): for a grid with rows ≥ 3 and cols ≥ 3 and an in-range cell,
    countAliveNeighbors returns a value in [0,8] equal to the number of live
    cells among the 8 pairwise-distinct toroidally-wrapped neighbor positions,
    the cell itself is not among those positions, and a live cell at
    (rows-1, cols-1) is counted as a neighbor of (0,0).  (On grids with
    rows ≤ 2 or cols ≤ 2 the wrapped positions coincide, the count is taken
    over the 8 offsets with multiplicity, and it can include the cell itself;
    see the counterexample.) -/
theorem countAliveNeighbors_spec (rows cols : Nat) (g : Grid) (row col : Nat)
    (hr : 3 ≤ rows) (hc : 3 ≤ cols) (hrow : row < rows) (hcol : col < cols) :
    countAliveNeighbors rows cols g row col ≤ 8 ∧
    countAliveNeighbors rows cols g row col = specNeighborCount rows cols g row col ∧
    (row, col) ∉ neighborPositions rows cols row col ∧
    (getCell g (rows - 1) (cols - 1) = true → 1 ≤ countAliveNeighbors rows cols g 0 0) := by
  refine ⟨?_, ?_, self_not_mem_neighborPositions hr hc hrow hcol, ?_⟩
  · rw [countAliveNeighbors_eq_countP]
    exact le_trans (List.countP_le_length _) (by decide)
  · rw [countAliveNeighbors_eq_countP, specNeighborCount,
      (neighborPositions_nodup hr hc hrow hcol).dedup, ← List.countP_eq_length_filter,
      neighborPositions, List.countP_map]
    rfl
  · intro hlive
    rw [countAliveNeighbors_eq_countP]
    refine List.countP_pos_iff.mpr ⟨(-1, -1), by decide, ?_⟩
    simp only [wrapIdx_neg_one (by omega : 1 ≤ rows), wrapIdx_neg_one (by omega : 1 ≤ cols)]
    simpa using hlive

/-- Witness for `countAliveNeighbors_spec`: 3x3 grid, live cell at (2,2),
    queried at (0,0). -/
theorem countAliveNeighbors_spec_witness :
    let g : Grid := [[false, false, false], [false, false, false], [false, false, true]]
    countAliveNeighbors 3 3 g 0 0 ≤ 8 ∧
    countAliveNeighbors 3 3 g 0 0 = specNeighborCount 3 3 g 0 0 ∧
    (0, 0) ∉ neighborPositions 3 3 0 0 ∧
    (getCell g 2 2 = true → 1 ≤ countAliveNeighbors 3 3 g 0 0) := by
  exact countAliveNeighbors_spec 3 3 _ 0 0 (by decide) (by decide) (by decide) (by decide)

/-- C5 (counterexample): on the 1x1 grid whose only cell is alive, the code
    counts 8 (all eight wrapped offsets land on the cell itself), while the
    claim - not counting the cell itself, and counting live cells among the
    wrapped neighbor positions - demands the number of live cells among the
    positions, which is 1 here (and 0 once the cell itself is excluded).
    In particular the cell (0,0) itself is among the wrapped neighbor
    positions, contradicting "never counts the cell (row, col) itself". -/
theorem countAliveNeighbors_counterexample :
    countAliveNeighbors 1 1 [[true]] 0 0 = 8 ∧
    specNeighborCount 1 1 [[true]] 0 0 = 1 ∧
    (0, 0) ∈ neighborPositions 1 1 0 0 := by decide

/-- C4 (evaluation at the failing input): seeding the Block pattern on a 1x1
    grid drives all four offsets onto the single cell (0,0); the code leaves
    currentAliveCells = 4 although the grid holds exactly 1 true cell and the
    pattern marks exactly 1 distinct cell live after deduplication. -/
theorem setPattern_overcounts_on_wrap :
    let s : GameState :=
      { rows := 1, cols := 1, grid := [[false]]
        generation := 0, currentAliveCells := 0, totalBirths := 0, totalDeaths := 0
        loopLength := 0, pattern := blockPattern, generationHistory := [] }
    (setPattern (fun _ => false) s).currentAliveCells = 4 ∧
    aliveCellCount (setPattern (fun _ => false) s).grid = 1 ∧
    (blockPattern.cells.map (patternTarget 1 1)).dedup.length = 1 := by decide

/-- C6 (counterexample): with a reported terminal size of 5 rows and 80
    columns the derived dimensions are rows = 0, cols = 40; the spec-checked
    constructor refuses them, but the constructor the code has succeeds and
    builds the degenerate grid - construction does not fail fast. -/
theorem init_accepts_degenerate_dims :
    terminalDims 5 80 = (0, 40) ∧
    specCheckedInit 5 80 = none ∧
    gameOfLifeInit 5 80 = some { rows := 0, cols := 40, grid := [] } := by decide

/-- C6 (amended): the constructor performs no dimension validation.  For
    every reported terminal size (ws_col is an unsigned short, so ws_col ≥ 0)
    construction succeeds exactly when the derived rows = ws_row - 5 is
    non-negative - in particular it succeeds at the degenerate rows = 0
    (ws_row = 5), where the spec-checked constructor refuses, so fail-fast is
    violated and a subsequent shaped seeding would run the toroidal wrap with
    modulus 0.  Construction fails only for ws_row ≤ 4, where the C++ vector
    constructor itself throws on the negative count converted to a huge
    size_t - an uncontrolled allocation failure, not a validation check - and
    whenever it succeeds the dimensions are stored unchecked. -/
theorem init_no_validation (wsRow wsCol : Int) (hc : 0 ≤ wsCol) :
    ((gameOfLifeInit wsRow wsCol).isSome = true ↔ 0 ≤ wsRow - 5) ∧
    (wsRow = 5 → ∃ d, gameOfLifeInit wsRow wsCol = some d ∧ d.rows = 0 ∧
      specCheckedInit wsRow wsCol = none) ∧
    (∀ d, gameOfLifeInit wsRow wsCol = some d → d.rows = wsRow - 5 ∧ d.cols = wsCol / 2) := by
  have hcol : 0 ≤ wsCol / 2 := Int.ediv_nonneg hc (by omega)
  by_cases h : wsRow - 5 < 0
  · have hnone : gameOfLifeInit wsRow wsCol = none := by
      simp only [gameOfLifeInit, terminalDims]
      rw [if_pos (Or.inl h)]
    refine ⟨?_, ?_, ?_⟩
    · rw [hnone]
      simp only [Option.isSome_none]
      constructor
      · intro hx
        exact absurd hx (by decide)
      · intro hx
        omega
    · intro h5
      omega
    · intro d hd
      rw [hnone] at hd
      exact Option.noConfusion hd
  · push_neg at h
    have hsome : gameOfLifeInit wsRow wsCol
        = some { rows := wsRow - 5, cols := wsCol / 2
                 grid := List.replicate (wsRow - 5).toNat
                   (List.replicate (wsCol / 2).toNat false) } := by
      simp only [gameOfLifeInit, terminalDims]
      rw [if_neg (by omega)]
    refine ⟨?_, ?_, ?_⟩
    · rw [hsome]
      simp only [Option.isSome_some, true_iff]
      omega
    · intro h5
      refine ⟨_, hsome, ?_, ?_⟩
      · show wsRow - 5 = 0
        omega
      · simp only [specCheckedInit, terminalDims]
        rw [if_pos (Or.inl (show wsRow - 5 ≤ 0 by omega))]
    · intro d hd
      rw [hsome] at hd
      have he := (Option.some.injEq _ _).mp hd
      rw [← he]
      exact ⟨rfl, rfl⟩

/-- Witness for `init_no_validation` at the degenerate terminal size (5, 80):
    construction succeeds with rows = 0 although the spec demands failure. -/
theorem init_no_validation_witness :
    ((gameOfLifeInit 5 80).isSome = true ↔ 0 ≤ (5 : Int) - 5) ∧
    ((5 : Int) = 5 → ∃ d, gameOfLifeInit 5 80 = some d ∧ d.rows = 0 ∧
      specCheckedInit 5 80 = none) ∧
    (∀ d, gameOfLifeInit 5 80 = some d → d.rows = (5 : Int) - 5 ∧ d.cols = 80 / 2) := by
  exact init_no_validation 5 80 (by decide)

/-! ### The detector and the simulation loop -/

theorem detectLoop_dead (s : GameState) (hd : areAllDead s.grid = true) :
    detectLoop s = { s with loopLength := -1 } := by
  unfold detectLoop
  rw [if_pos hd]

theorem detectLoop_not_dead (s : GameState) (hd : areAllDead s.grid = false) :
    detectLoop s =
      { s with
        loopLength :=
          match histFind s.generationHistory (serializeGrid s.grid) with
          | some v => (s.generation : Int) - (v : Int)
          | none => s.loopLength
        generationHistory :=
          histRecord s.generationHistory (serializeGrid s.grid) s.generation } := by
  unfold detectLoop
  rw [if_neg (by simp [hd])]
  cases hf : histFind s.generationHistory (serializeGrid s.grid) <;> simp [hf]

theorem tick_of_allDead {s : GameState} (h : areAllDead s.grid = true) :
    areAllDead (tick s).grid = true ∧ (tick s).loopLength = -1 ∧
    (tick s).generationHistory = s.generationHistory := by
  have hd : areAllDead (computeNextGeneration s).grid = true :=
    areAllDead_nextGrid h s.rows s.cols
  unfold tick
  rw [detectLoop_dead _ hd]
  exact ⟨hd, rfl, rfl⟩

theorem runFrom_allDead {s : GameState} (h : areAllDead s.grid = true) :
    ∀ n : Nat, areAllDead (runFrom s n).grid = true ∧
      (runFrom s n).generationHistory = s.generationHistory ∧
      (1 ≤ n → (runFrom s n).loopLength = -1)
  | 0 => ⟨h, rfl, by omega⟩
  | n + 1 => by
    obtain ⟨h1, h2, _⟩ := runFrom_allDead h n
    obtain ⟨t1, t2, t3⟩ := tick_of_allDead h1
    refine ⟨t1, ?_, fun _ => t2⟩
    calc (runFrom s (n + 1)).generationHistory
        = (tick (runFrom s n)).generationHistory := rfl
      _ = (runFrom s n).generationHistory := t3
      _ = s.generationHistory := h2

/-- C3: once the grid is all dead, the detection call sets cycle_length to
    exactly -1 and leaves the history map untouched, and on every subsequent
    simulation iteration (step followed by detection) cycle_length is again
    -1 and the history map still untouched. -/
theorem extinction_terminal (s : GameState) (h : areAllDead s.grid = true) :
    (detectLoop s).loopLength = -1 ∧
    (detectLoop s).generationHistory = s.generationHistory ∧
    ∀ n : Nat, 1 ≤ n →
      (runFrom s n).loopLength = -1 ∧
      (runFrom s n).generationHistory = s.generationHistory := by
  rw [detectLoop_dead s h]
  exact ⟨rfl, rfl, fun n hn =>
    ⟨(runFrom_allDead h n).2.2 hn, (runFrom_allDead h n).2.1⟩⟩

/-- Witness for `extinction_terminal` at a concrete all-dead 2x2 state. -/
theorem extinction_terminal_witness :
    let s : GameState :=
      { rows := 2, cols := 2, grid := [[false, false], [false, false]]
        generation := 3, currentAliveCells := 0, totalBirths := 1, totalDeaths := 1
        loopLength := 0, pattern := gliderPattern, generationHistory := [("1000", 1)] }
    (detectLoop s).loopLength = -1 ∧
    (detectLoop s).generationHistory = s.generationHistory ∧
    ∀ n : Nat, 1 ≤ n →
      (runFrom s n).loopLength = -1 ∧
      (runFrom s n).generationHistory = s.generationHistory := by
  exact extinction_terminal _ (by decide)

/-! ### History map lemmas -/

theorem find?_replace_self (h : List (String × Nat)) (k : String) (v : Nat)
    (hc : (h.find? (fun e => e.1 == k)).isSome = true) :
    ((h.map (fun e => if e.1 == k then (k, v) else e)).find? (fun e => e.1 == k))
      = some (k, v) := by
  rw [List.find?_map]
  have hp : ((fun e : String × Nat => e.1 == k) ∘ (fun e => if e.1 == k then (k, v) else e))
      = (fun e : String × Nat => e.1 == k) := by
    funext e
    by_cases he : e.1 = k <;> simp [he]
  rw [hp]
  obtain ⟨a, ha⟩ := Option.isSome_iff_exists.mp hc
  have hpa := List.find?_some ha
  simp only at hpa
  rw [ha]
  simp [hpa]
  exact fun hne => absurd (eq_of_beq hpa) hne

theorem find?_replace_other (h : List (String × Nat)) (k k' : String) (v : Nat)
    (hkk : k' ≠ k) :
    ((h.map (fun e => if e.1 == k then (k, v) else e)).find? (fun e => e.1 == k'))
      = h.find? (fun e => e.1 == k') := by
  rw [List.find?_map]
  have hp : ((fun e : String × Nat => e.1 == k') ∘ (fun e => if e.1 == k then (k, v) else e))
      = (fun e : String × Nat => e.1 == k') := by
    funext e
    by_cases he : e.1 = k <;> simp [he]
  rw [hp]
  cases ha : h.find? (fun e => e.1 == k') with
  | none => simp
  | some a =>
    have hpa := List.find?_some ha
    simp only at hpa
    have hak : ¬ a.1 = k := by
      rw [eq_of_beq hpa]
      exact hkk
    simp [hak]

theorem histFind_record_self (h : List (String × Nat)) (k : String) (v : Nat) :
    histFind (histRecord h k v) k = some v := by
  unfold histFind histRecord
  split_ifs with hc
  · rw [find?_replace_self h k v hc]
    rfl
  · simp [List.find?_cons]

theorem histFind_record_other (h : List (String × Nat)) (k k' : String) (v : Nat)
    (hkk : k' ≠ k) : histFind (histRecord h k v) k' = histFind h k' := by
  unfold histFind histRecord
  split_ifs with hc
  · rw [find?_replace_other h k k' v hkk]
  · simp [List.find?_cons, beq_false_of_ne (Ne.symm hkk)]

/-! ### Claim theorems C2, C8 -/

/-- C2 (amended): whenever the detector encounters a non-all-dead grid whose
    serialized key is already present in the history map, it sets
    cycle_length to the current generation minus the generation at which that
    exact state was most recently recorded (strictly positive whenever every
    recorded index precedes the current generation, as is the case in every
    run), and the re-recording of the key afterwards overwrites the stored
    index with the current generation. -/
theorem detect_repeat_sets_period (s : GameState)
    (hdead : areAllDead s.grid = false) (v : Nat)
    (hfind : histFind s.generationHistory (serializeGrid s.grid) = some v)
    (hlt : v < s.generation) :
    (detectLoop s).loopLength = (s.generation : Int) - (v : Int) ∧
    0 < (detectLoop s).loopLength ∧
    histFind (detectLoop s).generationHistory (serializeGrid s.grid)
      = some s.generation := by
  rw [detectLoop_not_dead s hdead]
  refine ⟨by simp [hfind], ?_, ?_⟩
  · simp only [hfind]
    have : (v : Int) < (s.generation : Int) := by exact_mod_cast hlt
    omega
  · simp only [hfind]
    exact histFind_record_self s.generationHistory (serializeGrid s.grid) s.generation

/-- Witness for `detect_repeat_sets_period`: a 1x1 live grid whose serialized
    state "1" was recorded at generation 0, detected again at generation 2. -/
theorem detect_repeat_sets_period_witness :
    let s : GameState :=
      { rows := 1, cols := 1, grid := [[true]]
        generation := 2, currentAliveCells := 1, totalBirths := 0, totalDeaths := 0
        loopLength := 0, pattern := blockPattern, generationHistory := [("1", 0)] }
    (detectLoop s).loopLength = (s.generation : Int) - ((0 : Nat) : Int) ∧
    0 < (detectLoop s).loopLength ∧
    histFind (detectLoop s).generationHistory (serializeGrid s.grid)
      = some s.generation := by
  exact detect_repeat_sets_period _ (by decide) 0 (by decide) (by decide)

/-- The state of the program after choosing the Blinker pattern on a 5x5 grid
    and seeding it: the simulation start state of `run`. -/
def blinkerStart : GameState :=
  setPattern (fun _ => false)
    { rows := 5, cols := 5, grid := List.replicate 5 (List.replicate 5 false)
      generation := 0, currentAliveCells := 0, totalBirths := 0, totalDeaths := 0
      loopLength := 0, pattern := blinkerPattern, generationHistory := [] }

/-- C2 (counterexample): in the Blinker run on a 5x5 grid, the state reached
    at generation 5 was first observed at generation 1 (it equals the
    generation-1 state and differs from the seeded generation-0 state, and
    states are only recorded from generation 1 on), so the claim demands
    cycle_length = 5 - 1 = 4; the detector instead computes 5 - 3 = 2, because
    history["..."] had been overwritten with the latest occurrence 3.  The
    re-recording afterwards is not a no-op either: it moves the stored index
    of that key from 3 to 5. -/
theorem detect_uses_latest_occurrence :
    (runFrom blinkerStart 5).loopLength = 2 ∧
    (2 : Int) ≠ (5 : Int) - (1 : Int) ∧
    serializeGrid (runFrom blinkerStart 1).grid = serializeGrid (runFrom blinkerStart 5).grid ∧
    serializeGrid (runFrom blinkerStart 0).grid ≠ serializeGrid (runFrom blinkerStart 5).grid ∧
    histFind (runFrom blinkerStart 4).generationHistory
      (serializeGrid (runFrom blinkerStart 5).grid) = some 3 ∧
    histFind (runFrom blinkerStart 5).generationHistory
      (serializeGrid (runFrom blinkerStart 5).grid) = some 5 := by decide

/-- The state of the program after choosing the Block pattern on a 6x6 grid
    and seeding it. -/
def blockStart : GameState :=
  setPattern (fun _ => false)
    { rows := 6, cols := 6, grid := List.replicate 6 (List.replicate 6 false)
      generation := 0, currentAliveCells := 0, totalBirths := 0, totalDeaths := 0
      loopLength := 0, pattern := blockPattern, generationHistory := [] }

/-- C8 (counterexample): in the Block run, one advance leaves the grid
    bit-for-bit identical, but the detection pass that follows that advance
    reports cycle_length = 0, not 1: the seeded generation-0 state was never
    recorded in the history, so the first pass only records the state. -/
theorem block_first_detection_reports_zero :
    (runFrom blockStart 1).grid = blockStart.grid ∧
    (runFrom blockStart 1).loopLength = 0 ∧
    (0 : Int) ≠ 1 := by decide

/-- C8 (amended): on a grid seeded with exactly the 2x2 Block pattern and no
    other live cells (6x6, no self-interaction), one advance yields a grid
    bit-for-bit identical to the pre-step grid; the detection pass following
    that advance still reports 0 (it merely records the state), and the
    detector reports cycle_length = 1 on the second detection pass, when the
    recorded state recurs. -/
theorem block_still_life_period_one :
    (runFrom blockStart 1).grid = blockStart.grid ∧
    (runFrom blockStart 1).loopLength = 0 ∧
    (runFrom blockStart 2).loopLength = 1 := by decide

/-! ### Run structure: grids, shapes and serialization along a run -/

/-- A grid that actually has the dimensions the state claims (as every grid
    built by the constructor and by computeNextGeneration does). -/
def wellShaped (rows cols : Nat) (g : Grid) : Prop :=
  g.length = rows ∧ ∀ row ∈ g, row.length = cols

instance (rows cols : Nat) (g : Grid) : Decidable (wellShaped rows cols g) := by
  unfold wellShaped
  infer_instance

/-- The grid of generation n: n-fold application of the step to the start
    grid.  The simulation loop produces exactly these grids. -/
def gridSeq (s0 : GameState) : Nat → Grid
  | 0 => s0.grid
  | n + 1 => nextGrid s0.rows s0.cols (gridSeq s0 n)

/-- The serialized key of the generation-n grid. -/
def stateKey (s0 : GameState) (n : Nat) : String :=
  serializeGrid (gridSeq s0 n)

theorem detectLoop_fields (s : GameState) :
    (detectLoop s).rows = s.rows ∧ (detectLoop s).cols = s.cols ∧
    (detectLoop s).grid = s.grid ∧ (detectLoop s).generation = s.generation := by
  unfold detectLoop
  split_ifs with hd
  · exact ⟨rfl, rfl, rfl, rfl⟩
  · cases hf : histFind s.generationHistory (serializeGrid s.grid) <;> simp [hf]

theorem runFrom_fields (s0 : GameState) : ∀ n : Nat,
    (runFrom s0 n).rows = s0.rows ∧ (runFrom s0 n).cols = s0.cols ∧
    (runFrom s0 n).generation = s0.generation + n ∧
    (runFrom s0 n).grid = gridSeq s0 n
  | 0 => ⟨rfl, rfl, rfl, rfl⟩
  | n + 1 => by
    obtain ⟨h1, h2, h3, h4⟩ := runFrom_fields s0 n
    have hstep : runFrom s0 (n + 1) = detectLoop (computeNextGeneration (runFrom s0 n)) := rfl
    obtain ⟨d1, d2, d3, d4⟩ := detectLoop_fields (computeNextGeneration (runFrom s0 n))
    rw [hstep, d1, d2, d3, d4]
    refine ⟨h1, h2, by rw [show (computeNextGeneration (runFrom s0 n)).generation
      = (runFrom s0 n).generation + 1 from rfl, h3]; omega, ?_⟩
    rw [show (computeNextGeneration (runFrom s0 n)).grid
      = nextGrid (runFrom s0 n).rows (runFrom s0 n).cols (runFrom s0 n).grid from rfl,
      h1, h2, h4]
    rfl

theorem runFrom_succ_dead (s0 : GameState) (n : Nat)
    (hd : areAllDead (gridSeq s0 (n + 1)) = true) :
    (runFrom s0 (n + 1)).loopLength = -1 ∧
    (runFrom s0 (n + 1)).generationHistory = (runFrom s0 n).generationHistory := by
  have hg : (computeNextGeneration (runFrom s0 n)).grid = gridSeq s0 (n + 1) := by
    rw [show (computeNextGeneration (runFrom s0 n)).grid
      = nextGrid (runFrom s0 n).rows (runFrom s0 n).cols (runFrom s0 n).grid from rfl,
      (runFrom_fields s0 n).1, (runFrom_fields s0 n).2.1, (runFrom_fields s0 n).2.2.2]
    rfl
  have hstep : runFrom s0 (n + 1) = detectLoop (computeNextGeneration (runFrom s0 n)) := rfl
  rw [hstep, detectLoop_dead _ (by rw [hg]; exact hd)]
  exact ⟨rfl, rfl⟩

theorem runFrom_succ_live (s0 : GameState) (n : Nat) (hgen : s0.generation = 0)
    (hd : areAllDead (gridSeq s0 (n + 1)) = false) :
    (runFrom s0 (n + 1)).generationHistory
      = histRecord (runFrom s0 n).generationHistory (stateKey s0 (n + 1)) (n + 1) ∧
    (runFrom s0 (n + 1)).loopLength =
      (match histFind (runFrom s0 n).generationHistory (stateKey s0 (n + 1)) with
       | some v => (((n + 1 : Nat)) : Int) - (v : Int)
       | none => (runFrom s0 n).loopLength) := by
  have hg : (computeNextGeneration (runFrom s0 n)).grid = gridSeq s0 (n + 1) := by
    rw [show (computeNextGeneration (runFrom s0 n)).grid
      = nextGrid (runFrom s0 n).rows (runFrom s0 n).cols (runFrom s0 n).grid from rfl,
      (runFrom_fields s0 n).1, (runFrom_fields s0 n).2.1, (runFrom_fields s0 n).2.2.2]
    rfl
  have hgen' : (computeNextGeneration (runFrom s0 n)).generation = n + 1 := by
    rw [show (computeNextGeneration (runFrom s0 n)).generation
      = (runFrom s0 n).generation + 1 from rfl, (runFrom_fields s0 n).2.2.1, hgen]
    omega
  have hhist : (computeNextGeneration (runFrom s0 n)).generationHistory
      = (runFrom s0 n).generationHistory := rfl
  have hloop : (computeNextGeneration (runFrom s0 n)).loopLength
      = (runFrom s0 n).loopLength := rfl
  have hstep : runFrom s0 (n + 1) = detectLoop (computeNextGeneration (runFrom s0 n)) := rfl
  rw [hstep, detectLoop_not_dead _ (by rw [hg]; exact hd)]
  constructor
  · show histRecord (computeNextGeneration (runFrom s0 n)).generationHistory
        (serializeGrid (computeNextGeneration (runFrom s0 n)).grid)
        (computeNextGeneration (runFrom s0 n)).generation = _
    rw [hhist, hgen', hg]
    rfl
  · show (match histFind (computeNextGeneration (runFrom s0 n)).generationHistory
        (serializeGrid (computeNextGeneration (runFrom s0 n)).grid) with
       | some v => ((computeNextGeneration (runFrom s0 n)).generation : Int) - (v : Int)
       | none => (computeNextGeneration (runFrom s0 n)).loopLength) = _
    rw [hhist, hgen', hg, hloop]
    rfl

theorem wellShaped_nextGrid (rows cols : Nat) (g : Grid) :
    wellShaped rows cols (nextGrid rows cols g) := by
  constructor
  · simp [nextGrid]
  · intro row hrow
    simp only [nextGrid, List.mem_map, List.mem_range] at hrow
    obtain ⟨i, _, rfl⟩ := hrow
    simp

theorem gridSeq_wellShaped (s0 : GameState)
    (h0 : wellShaped s0.rows s0.cols s0.grid) :
    ∀ n : Nat, wellShaped s0.rows s0.cols (gridSeq s0 n)
  | 0 => h0
  | n + 1 => wellShaped_nextGrid s0.rows s0.cols (gridSeq s0 n)

theorem boolChar_injective :
    Function.Injective (fun cell : Bool => if cell then '1' else '0') := by
  intro a b h
  cases a <;> cases b <;> simp_all

theorem flatten_eq_of_shape {cols : Nat} :
    ∀ (g g' : Grid), g.length = g'.length →
      (∀ r ∈ g, r.length = cols) → (∀ r ∈ g', r.length = cols) →
      g.flatten = g'.flatten → g = g'
  | [], [], _, _, _, _ => rfl
  | [], r' :: t', hlen, _, _, _ => by simp at hlen
  | r :: t, [], hlen, _, _, _ => by simp at hlen
  | r :: t, r' :: t', hlen, hs, hs', hf => by
    simp only [List.flatten_cons] at hf
    have hr : r.length = r'.length := by
      rw [hs r (by simp), hs' r' (by simp)]
    obtain ⟨he, ht⟩ := List.append_inj hf hr
    have := flatten_eq_of_shape t t' (by simpa using hlen)
      (fun x hx => hs x (by simp [hx])) (fun x hx => hs' x (by simp [hx])) ht
    rw [he, this]

theorem serializeGrid_inj {rows cols : Nat} {g g' : Grid}
    (hg : wellShaped rows cols g) (hg' : wellShaped rows cols g')
    (h : serializeGrid g = serializeGrid g') : g = g' := by
  unfold serializeGrid at h
  have hdata : g.flatten.map (fun cell => if cell then '1' else '0')
      = g'.flatten.map (fun cell => if cell then '1' else '0') := by
    exact congrArg String.data h
  have hflat : g.flatten = g'.flatten :=
    List.map_injective_iff.mpr boolChar_injective hdata
  exact flatten_eq_of_shape g g' (hg.1.trans hg'.1.symm) hg.2 hg'.2 hflat

theorem gridSeq_dead_propagates (s0 : GameState) {m : Nat}
    (hm : areAllDead (gridSeq s0 m) = true) :
    ∀ n : Nat, m ≤ n → areAllDead (gridSeq s0 n) = true := by
  intro n hn
  induction n with
  | zero => rw [Nat.le_zero.mp hn] at hm; exact hm
  | succ k ih =>
    rcases Nat.lt_or_ge m (k + 1) with hlt | hge
    · have := ih (by omega)
      exact areAllDead_nextGrid this s0.rows s0.cols
    · rw [Nat.le_antisymm hn hge] at hm
      exact hm

/-! ### Periodicity of the deterministic grid sequence -/

theorem gridSeq_per (s0 : GameState) {v p : Nat}
    (hper : gridSeq s0 (v + p) = gridSeq s0 v) :
    ∀ d : Nat, gridSeq s0 (v + d + p) = gridSeq s0 (v + d)
  | 0 => hper
  | d + 1 => by
    have ih := gridSeq_per s0 hper d
    have e1 : v + (d + 1) + p = (v + d + p) + 1 := by omega
    have e2 : v + (d + 1) = (v + d) + 1 := by omega
    rw [e1, e2]
    show nextGrid s0.rows s0.cols (gridSeq s0 (v + d + p))
      = nextGrid s0.rows s0.cols (gridSeq s0 (v + d))
    rw [ih]

theorem gridSeq_per_mod (s0 : GameState) {v p : Nat}
    (hper : gridSeq s0 (v + p) = gridSeq s0 v) (hp : 1 ≤ p) (d : Nat) :
    gridSeq s0 (v + d) = gridSeq s0 (v + d % p) := by
  induction d using Nat.strong_induction_on with
  | _ d ih =>
    by_cases hd : d < p
    · rw [Nat.mod_eq_of_lt hd]
    · push_neg at hd
      have h1 : d % p = (d - p) % p := by
        conv_lhs => rw [show d = (d - p) + p by omega]
        rw [Nat.add_mod_right]
      have h2 : v + d = (v + (d - p)) + p := by omega
      rw [h1, h2, gridSeq_per s0 hper (d - p)]
      exact ih (d - p) (by omega)

theorem gridSeq_cycle_nondead (s0 : GameState) {v p : Nat}
    (hper : gridSeq s0 (v + p) = gridSeq s0 v) (hp : 1 ≤ p)
    (hv : areAllDead (gridSeq s0 v) = false) :
    ∀ m : Nat, v ≤ m → areAllDead (gridSeq s0 m) = false := by
  intro m hm
  by_contra hdead
  rw [Bool.not_eq_false] at hdead
  have hge : m ≤ v + p * (m - v + 1) := by
    have := Nat.le_mul_of_pos_left (m - v + 1) (show 0 < p by omega)
    omega
  have hd0 : (p * (m - v + 1)) % p = 0 := Nat.mul_mod_right p _
  have heq := gridSeq_per_mod s0 hper hp (p * (m - v + 1))
  rw [hd0] at heq
  have hdead2 : areAllDead (gridSeq s0 (v + p * (m - v + 1))) = true :=
    gridSeq_dead_propagates s0 hdead _ hge
  rw [heq] at hdead2
  rw [show v + 0 = v by omega, hv] at hdead2
  exact Bool.noConfusion hdead2

/-! ### What the history map holds along a run -/

/-- Along any run started with an empty history at generation 0, the history
    map binds a key exactly to the latest generation in [1, n] whose
    (non-all-dead) grid serializes to that key. -/
theorem hist_inv (s0 : GameState) (hh : s0.generationHistory = [])
    (hgen : s0.generation = 0) (hw : wellShaped s0.rows s0.cols s0.grid) :
    ∀ n k v, histFind (runFrom s0 n).generationHistory k = some v ↔
      (1 ≤ v ∧ v ≤ n ∧ stateKey s0 v = k ∧ areAllDead (gridSeq s0 v) = false ∧
       ∀ m, v < m → m ≤ n → stateKey s0 m ≠ k) := by
  intro n
  induction n with
  | zero =>
    intro k v
    rw [show runFrom s0 0 = s0 from rfl, hh]
    constructor
    · intro h
      simp [histFind] at h
    · rintro ⟨h1, h2, _⟩
      omega
  | succ t ih =>
    intro k v
    cases hd : areAllDead (gridSeq s0 (t + 1)) with
    | true =>
      obtain ⟨_, hhist⟩ := runFrom_succ_dead s0 t hd
      rw [hhist, ih k v]
      constructor
      · rintro ⟨h1, h2, h3, h4, h5⟩
        refine ⟨h1, by omega, h3, h4, ?_⟩
        intro m hm1 hm2
        rcases Nat.lt_or_ge m (t + 1) with hc | hc
        · exact h5 m hm1 (by omega)
        · have hm : m = t + 1 := by omega
          subst hm
          intro hkeq
          have hkey : serializeGrid (gridSeq s0 (t + 1)) = serializeGrid (gridSeq s0 v) := by
            rw [show serializeGrid (gridSeq s0 (t + 1)) = stateKey s0 (t + 1) from rfl,
              show serializeGrid (gridSeq s0 v) = stateKey s0 v from rfl, hkeq, h3]
          have hgeq : gridSeq s0 (t + 1) = gridSeq s0 v :=
            serializeGrid_inj (gridSeq_wellShaped s0 hw (t + 1))
              (gridSeq_wellShaped s0 hw v) hkey
          rw [hgeq, h4] at hd
          exact Bool.noConfusion hd
      · rintro ⟨h1, h2, h3, h4, h5⟩
        have hvt : v ≤ t := by
          rcases Nat.lt_or_ge v (t + 1) with hc | hc
          · omega
          · have hv1 : v = t + 1 := by omega
            rw [hv1, hd] at h4
            exact Bool.noConfusion h4
        exact ⟨h1, hvt, h3, h4, fun m hm1 hm2 => h5 m hm1 (by omega)⟩
    | false =>
      obtain ⟨hhist, _⟩ := runFrom_succ_live s0 t hgen hd
      rw [hhist]
      by_cases hk : k = stateKey s0 (t + 1)
      · subst hk
        rw [histFind_record_self]
        constructor
        · intro h
          have hv1 : v = t + 1 := (Option.some.injEq _ _).mp h |>.symm
          subst hv1
          exact ⟨by omega, by omega, rfl, hd, fun m hm1 hm2 => by omega⟩
        · rintro ⟨h1, h2, h3, h4, h5⟩
          rcases Nat.lt_or_ge v (t + 1) with hc | hc
          · exact absurd rfl (h5 (t + 1) hc (by omega))
          · have hv1 : v = t + 1 := by omega
            rw [hv1]
      · rw [histFind_record_other _ _ _ _ hk, ih k v]
        constructor
        · rintro ⟨h1, h2, h3, h4, h5⟩
          refine ⟨h1, by omega, h3, h4, fun m hm1 hm2 => ?_⟩
          rcases Nat.lt_or_ge m (t + 1) with hc | hc
          · exact h5 m hm1 (by omega)
          · have hm : m = t + 1 := by omega
            rw [hm]
            exact fun hx => hk hx.symm
        · rintro ⟨h1, h2, h3, h4, h5⟩
          have hvt : v ≤ t := by
            by_contra hv
            have hv1 : v = t + 1 := by omega
            exact hk (by rw [← h3, hv1])
          exact ⟨h1, hvt, h3, h4, fun m hm1 hm2 => h5 m hm1 (by omega)⟩

/-- Once the sequence repeats after a window of pairwise-distinct states, no
    two states closer than one period apart are ever equal again. -/
theorem dist_of_window (s0 : GameState) {v p t : Nat} (hv : 1 ≤ v) (hp : 1 ≤ p)
    (hvpt : v + p = t + 1)
    (hper : gridSeq s0 (v + p) = gridSeq s0 v)
    (hdistinct : ∀ a b, 1 ≤ a → a < b → b ≤ t → gridSeq s0 a ≠ gridSeq s0 b) :
    ∀ a b, v ≤ a → a < b → b < a + p → gridSeq s0 a ≠ gridSeq s0 b := by
  intro a b ha hab hbap heq
  have ea : gridSeq s0 a = gridSeq s0 (v + (a - v) % p) := by
    conv_lhs => rw [show a = v + (a - v) by omega]
    exact gridSeq_per_mod s0 hper hp (a - v)
  have eb : gridSeq s0 b = gridSeq s0 (v + (b - v) % p) := by
    conv_lhs => rw [show b = v + (b - v) by omega]
    exact gridSeq_per_mod s0 hper hp (b - v)
  have hqa : (a - v) % p < p := Nat.mod_lt _ (by omega)
  have hqb : (b - v) % p < p := Nat.mod_lt _ (by omega)
  have hne : (a - v) % p ≠ (b - v) % p := by
    intro he
    have hmod : (a - v) ≡ (b - v) [MOD p] := he
    have hdvd : p ∣ (b - v) - (a - v) := (Nat.modEq_iff_dvd' (by omega)).mp hmod
    rw [show (b - v) - (a - v) = b - a by omega] at hdvd
    have := Nat.le_of_dvd (by omega) hdvd
    omega
  have hkey : gridSeq s0 (v + (a - v) % p) = gridSeq s0 (v + (b - v) % p) := by
    rw [← ea, ← eb, heq]
  rcases Nat.lt_or_ge (v + (a - v) % p) (v + (b - v) % p) with hlt | hge
  · exact hdistinct _ _ (by omega) hlt (by omega) hkey
  · have hlt' : v + (b - v) % p < v + (a - v) % p := by omega
    exact hdistinct _ _ (by omega) hlt' (by omega) hkey.symm

/-- Once the run is inside a cycle whose states within one period are
    pairwise distinct, the next detection computes the same period again. -/
theorem step_keeps_period (s0 : GameState) (hh : s0.generationHistory = [])
    (hgen : s0.generation = 0) (hw : wellShaped s0.rows s0.cols s0.grid)
    (t v p : Nat) (hv : 1 ≤ v) (hp : 1 ≤ p) (hvpt : v + p ≤ t)
    (hper : gridSeq s0 (v + p) = gridSeq s0 v)
    (hnd : areAllDead (gridSeq s0 v) = false)
    (hdist : ∀ a b, v ≤ a → a < b → b < a + p → gridSeq s0 a ≠ gridSeq s0 b) :
    (runFrom s0 (t + 1)).loopLength = (p : Int) := by
  have hndall := gridSeq_cycle_nondead s0 hper hp hnd
  have hd : areAllDead (gridSeq s0 (t + 1)) = false := hndall (t + 1) (by omega)
  obtain ⟨_, hloop⟩ := runFrom_succ_live s0 t hgen hd
  have hgeq : gridSeq s0 (t + 1) = gridSeq s0 (t + 1 - p) := by
    have hper' := gridSeq_per s0 hper (t + 1 - p - v)
    rw [show v + (t + 1 - p - v) + p = t + 1 by omega,
      show v + (t + 1 - p - v) = t + 1 - p by omega] at hper'
    exact hper'
  have hfind : histFind (runFrom s0 t).generationHistory (stateKey s0 (t + 1))
      = some (t + 1 - p) := by
    rw [hist_inv s0 hh hgen hw t]
    refine ⟨by omega, by omega, ?_, hndall _ (by omega), ?_⟩
    · show serializeGrid (gridSeq s0 (t + 1 - p)) = serializeGrid (gridSeq s0 (t + 1))
      rw [hgeq]
    · intro m hm1 hm2 hkeq
      have hmeq : gridSeq s0 m = gridSeq s0 (t + 1) :=
        serializeGrid_inj (gridSeq_wellShaped s0 hw m)
          (gridSeq_wellShaped s0 hw (t + 1)) hkeq
      rw [hgeq] at hmeq
      exact hdist (t + 1 - p) m (by omega) (by omega) (by omega) hmeq.symm
  rw [hloop, hfind]
  show ((t + 1 : Nat) : Int) - ((t + 1 - p : Nat) : Int) = (p : Int)
  omega

/-- The run-level invariant tying the loop-length field to the structure of
    the grid sequence: while 0, all recorded states are pairwise distinct;
    once -1, the grid is dead; once positive, the value is the period of the
    cycle the sequence has entered. -/
theorem run_loop_inv (s0 : GameState) (hh : s0.generationHistory = [])
    (hgen : s0.generation = 0) (hl : s0.loopLength = 0)
    (hw : wellShaped s0.rows s0.cols s0.grid) :
    ∀ t : Nat,
      ((runFrom s0 t).loopLength = 0 →
        ∀ a b, 1 ≤ a → a < b → b ≤ t → gridSeq s0 a ≠ gridSeq s0 b) ∧
      ((runFrom s0 t).loopLength = -1 → areAllDead (gridSeq s0 t) = true) ∧
      (0 < (runFrom s0 t).loopLength →
        ∃ v p : Nat, 1 ≤ v ∧ 1 ≤ p ∧ v + p ≤ t ∧
          (runFrom s0 t).loopLength = (p : Int) ∧
          gridSeq s0 (v + p) = gridSeq s0 v ∧
          areAllDead (gridSeq s0 v) = false ∧
          (∀ a b, v ≤ a → a < b → b < a + p → gridSeq s0 a ≠ gridSeq s0 b)) ∧
      ((runFrom s0 t).loopLength = 0 ∨ (runFrom s0 t).loopLength = -1 ∨
        0 < (runFrom s0 t).loopLength) := by
  intro t
  induction t with
  | zero =>
    have hL0 : (runFrom s0 0).loopLength = 0 := hl
    refine ⟨fun _ a b h1 h2 h3 => by omega, ?_, ?_, Or.inl hL0⟩
    · intro h0
      rw [hL0] at h0
      exact absurd h0 (by decide)
    · intro h0
      rw [hL0] at h0
      exact absurd h0 (by decide)
  | succ t ih =>
    obtain ⟨ih0, ihm1, ihpos, ihtri⟩ := ih
    cases hd : areAllDead (gridSeq s0 (t + 1)) with
    | true =>
      obtain ⟨hL, _⟩ := runFrom_succ_dead s0 t hd
      refine ⟨?_, fun _ => rfl, ?_, Or.inr (Or.inl hL)⟩
      · intro h0
        rw [hL] at h0
        exact absurd h0 (by decide)
      · intro h0
        rw [hL] at h0
        exact absurd h0 (by decide)
    | false =>
      obtain ⟨_, hloop⟩ := runFrom_succ_live s0 t hgen hd
      rcases ihtri with hz | hm1 | hpos
      · cases hfind : histFind (runFrom s0 t).generationHistory (stateKey s0 (t + 1)) with
        | none =>
          have hL : (runFrom s0 (t + 1)).loopLength = 0 := by
            rw [hloop, hfind]
            exact hz
          refine ⟨?_, ?_, ?_, Or.inl hL⟩
          · intro _ a b h1 h2 h3
            rcases Nat.lt_or_ge b (t + 1) with hc | hc
            · exact ih0 hz a b h1 h2 (by omega)
            · have hb : b = t + 1 := by omega
              subst hb
              intro heq
              have hpa : stateKey s0 a = stateKey s0 (t + 1) :=
                congrArg serializeGrid heq
              have hvmax1 : a ≤ Nat.findGreatest
                  (fun m => stateKey s0 m = stateKey s0 (t + 1)) t :=
                Nat.le_findGreatest (by omega) hpa
              have hvmaxle : Nat.findGreatest
                  (fun m => stateKey s0 m = stateKey s0 (t + 1)) t ≤ t :=
                Nat.findGreatest_le t
              have hvmaxP : stateKey s0 (Nat.findGreatest
                  (fun m => stateKey s0 m = stateKey s0 (t + 1)) t)
                  = stateKey s0 (t + 1) :=
                @Nat.findGreatest_spec a (fun m => stateKey s0 m = stateKey s0 (t + 1))
                  inferInstance t (show a ≤ t by omega) hpa
              have hvmg : gridSeq s0 (Nat.findGreatest
                  (fun m => stateKey s0 m = stateKey s0 (t + 1)) t)
                  = gridSeq s0 (t + 1) :=
                serializeGrid_inj (gridSeq_wellShaped s0 hw _)
                  (gridSeq_wellShaped s0 hw _) hvmaxP
              have hsome : histFind (runFrom s0 t).generationHistory
                  (stateKey s0 (t + 1)) = some (Nat.findGreatest
                  (fun m => stateKey s0 m = stateKey s0 (t + 1)) t) := by
                rw [hist_inv s0 hh hgen hw t]
                refine ⟨by omega, hvmaxle, hvmaxP, by rw [hvmg]; exact hd, ?_⟩
                intro m hm1 hm2
                exact Nat.findGreatest_is_greatest hm1 hm2
              rw [hfind] at hsome
              exact Option.noConfusion hsome
          · intro h0
            rw [hL] at h0
            exact absurd h0 (by decide)
          · intro h0
            rw [hL] at h0
            exact absurd h0 (by decide)
        | some v =>
          obtain ⟨hv1, hvt, hkeyv, hndv, _⟩ :=
            (hist_inv s0 hh hgen hw t (stateKey s0 (t + 1)) v).mp hfind
          have hgv : gridSeq s0 v = gridSeq s0 (t + 1) :=
            serializeGrid_inj (gridSeq_wellShaped s0 hw v)
              (gridSeq_wellShaped s0 hw (t + 1)) hkeyv
          have hper : gridSeq s0 (v + (t + 1 - v)) = gridSeq s0 v := by
            rw [show v + (t + 1 - v) = t + 1 by omega]
            exact hgv.symm
          have hL : (runFrom s0 (t + 1)).loopLength = ((t + 1 - v : Nat) : Int) := by
            rw [hloop, hfind]
            show ((t + 1 : Nat) : Int) - (v : Int) = ((t + 1 - v : Nat) : Int)
            omega
          have hdist := dist_of_window s0 hv1 (show 1 ≤ t + 1 - v by omega)
            (show v + (t + 1 - v) = t + 1 by omega) hper (ih0 hz)
          refine ⟨?_, ?_, ?_, ?_⟩
          · intro h0
            rw [hL] at h0
            omega
          · intro h0
            rw [hL] at h0
            omega
          · intro _
            exact ⟨v, t + 1 - v, hv1, by omega, by omega, hL, hper, hndv, hdist⟩
          · right; right
            rw [hL]
            omega
      · have hdt := ihm1 hm1
        have hdead1 : areAllDead (gridSeq s0 (t + 1)) = true :=
          areAllDead_nextGrid hdt s0.rows s0.cols
        rw [hd] at hdead1
        exact Bool.noConfusion hdead1
      · obtain ⟨v, p, hv1, hp1, hvpt, hLt, hper, hndv, hdist⟩ := ihpos hpos
        have hL := step_keeps_period s0 hh hgen hw t v p hv1 hp1 hvpt hper hndv hdist
        refine ⟨?_, ?_, ?_, ?_⟩
        · intro h0
          rw [hL] at h0
          omega
        · intro h0
          rw [hL] at h0
          omega
        · intro _
          exact ⟨v, p, hv1, hp1, by omega, hL, hper, hndv, hdist⟩
        · right; right
          rw [hL]
          omega

/-! ### Claim theorem C7 -/

/-- C7: in any run started with an empty history, generation 0 and loop
    length 0 (as the program does), once a detection call has set the loop
    length to a positive period, every subsequent detection call computes the
    same value: cycle_length keeps the period value detected first. -/
theorem loop_value_stable (s0 : GameState) (hh : s0.generationHistory = [])
    (hgen : s0.generation = 0) (hl : s0.loopLength = 0)
    (hw : wellShaped s0.rows s0.cols s0.grid) (t n : Nat)
    (hpos : 0 < (runFrom s0 t).loopLength) :
    (runFrom s0 (t + n)).loopLength = (runFrom s0 t).loopLength := by
  induction n with
  | zero => rfl
  | succ m ih =>
    have hpos' : 0 < (runFrom s0 (t + m)).loopLength := by
      rw [ih]
      exact hpos
    obtain ⟨v, p, hv1, hp1, hvpt, hLt, hper, hndv, hdist⟩ :=
      (run_loop_inv s0 hh hgen hl hw (t + m)).2.2.1 hpos'
    have hL := step_keeps_period s0 hh hgen hw (t + m) v p hv1 hp1 hvpt hper hndv hdist
    rw [show t + (m + 1) = (t + m) + 1 by omega, hL, ← hLt, ih]

/-- Witness for `loop_value_stable`: the 5x5 Blinker run first reports its
    period 2 at generation 3 and still reports 2 at generation 5. -/
theorem loop_value_stable_witness :
    0 < (runFrom blinkerStart 3).loopLength ∧
    (runFrom blinkerStart (3 + 2)).loopLength = (runFrom blinkerStart 3).loopLength := by
  refine ⟨by decide, ?_⟩
  exact loop_value_stable blinkerStart (by decide) (by decide) (by decide) (by decide)
    3 2 (by decide)

end GOL
